import Mathlib

/-!
Verification of the catalog-to-graph transformation core of
`dataatlas_backend` (`src/main.py`).

The transform logic of `fetch_metadata` (lines 63-80) and `fetch_columns`
(lines 92-108) is embedded shallowly: the already-fetched catalog rows are
the inputs, and the Python list of `{"data": {...}}` dictionaries is the
output.  A Python `dict[...]` index that can raise `KeyError` is modelled
as an `Option`-valued lookup, so the schema builder returns
`Option (List Element)` (`none` models the raised exception);
`dict.get(k, default)` is modelled by `dictGetD`.
-/

namespace DataAtlas

/-- A row of the `tables_query` result: one `table_name` column. -/
structure TableRow where
  table_name : String
deriving DecidableEq, Repr

/-- A row of the `relationships_query` result: the owning `table_name`
and the referenced `foreign_table_name`. -/
structure RelRow where
  table_name : String
  foreign_table_name : String
deriving DecidableEq, Repr

/-- A row of the `columns_query` result: one `column_name` column. -/
structure ColumnRow where
  column_name : String
deriving DecidableEq, Repr

/-- A graph element, i.e. one `{"data": {...}}` dictionary appended to the
`elements` list.  A node dictionary carries keys `id`, `label`, `type`;
an edge dictionary carries keys `id`, `source`, `target`, `type`.
The field `ty` embeds the source's `"type"` key (`type` is reserved in
Lean). -/
inductive Element where
  | node (id label ty : String)
  | edge (id source target ty : String)
deriving DecidableEq, Repr

/-- The `id` entry of an element's data dictionary. -/
def Element.idOf : Element → String
  | .node i _ _ => i
  | .edge i _ _ _ => i

/-- The `type` entry of an element's data dictionary. -/
def Element.tyOf : Element → String
  | .node _ _ t => t
  | .edge _ _ _ t => t

/-- The `source` entry of an edge element (`""` for a node, which has no
such key). -/
def Element.sourceOf : Element → String
  | .node _ _ _ => ""
  | .edge _ s _ _ => s

/-- The `target` entry of an edge element (`""` for a node, which has no
such key). -/
def Element.targetOf : Element → String
  | .node _ _ _ => ""
  | .edge _ _ t _ => t

/-- Whether the element is a node dictionary (`id`/`label`/`type`). -/
def Element.isNodeB : Element → Bool
  | .node _ _ _ => true
  | .edge _ _ _ _ => false

/-- Whether the element is an edge dictionary
(`id`/`source`/`target`/`type`). -/
def Element.isEdgeB : Element → Bool
  | .node _ _ _ => false
  | .edge _ _ _ _ => true

/-- Python `dict` lookup on an association list built by a comprehension:
entries later in the list overwrite earlier ones with the same key, so the
tail is consulted first.  `none` models a `KeyError` on `d[k]`. -/
def dictGet : List (String × String) → String → Option String
  | [], _ => none
  | p :: ps, k =>
    match dictGet ps k with
    | some v => some v
    | none => if p.1 = k then some p.2 else none

/-- Python `dict.get(k, fallback)`. -/
def dictGetD (d : List (String × String)) (k : String) (fallback : String) : String :=
  (dictGet d k).getD fallback

/-- A loop that applies a fallible body to each row in order; the first
failure (raised `KeyError`) aborts the whole computation. -/
def mapOption {α β : Type} (f : α → Option β) : List α → Option (List β)
  | [] => some []
  | a :: as =>
    match f a, mapOption f as with
    | some b, some bs => some (b :: bs)
    | _, _ => none

/-- The `table_nodes` dict comprehension of `fetch_metadata` (line 65):
`{table['table_name']: f"table_{table['table_name']}" for table in tables}`. -/
def table_nodes (tables : List TableRow) : List (String × String) :=
  tables.map (fun t => (t.table_name, "table_" ++ t.table_name))

/-- The transform of `fetch_metadata` (src/main.py lines 63-80), the spec's
`buildSchemaGraph`: one node per table row (id looked up in `table_nodes`),
then one edge per relationship row, where `source_id` is the raising index
`table_nodes[rel['table_name']]` and `target_id` is
`table_nodes.get(rel['foreign_table_name'], rel['foreign_table_name'])`.
`none` models the `KeyError` raised when a relationship's owning table
is absent from `table_nodes`. -/
def buildSchemaGraph (tables : List TableRow) (relationships : List RelRow) :
    Option (List Element) :=
  let tn := table_nodes tables
  match
    mapOption (fun t =>
      (dictGet tn t.table_name).map (fun tid =>
        Element.node tid t.table_name "table")) tables,
    mapOption (fun rel =>
      (dictGet tn rel.table_name).map (fun source_id =>
        let target_id := dictGetD tn rel.foreign_table_name rel.foreign_table_name
        Element.edge ("edge_" ++ source_id ++ "_to_" ++ target_id)
          source_id target_id "relationship")) relationships with
  | some ns, some es => some (ns ++ es)
  | _, _ => none

/-- The transform of `fetch_columns` (src/main.py lines 92-108), the spec's
`buildColumnGraph`: per column one node (id `f"{table}_{column_name}"`) into
`column_elements` and one edge (id `f"edge_{table}_to_{column_id}"`, source
`table_id`) into `edge_elements`; the result is
`column_elements + edge_elements`.  The `table_node` dictionary built on
line 96 is never appended to either list. -/
def buildColumnGraph (table : String) (columns : List ColumnRow) : List Element :=
  let table_id := "table_" ++ table
  let column_elements := columns.map (fun column =>
    Element.node (table ++ "_" ++ column.column_name) column.column_name "column")
  let edge_elements := columns.map (fun column =>
    Element.edge ("edge_" ++ table ++ "_to_" ++ (table ++ "_" ++ column.column_name))
      table_id (table ++ "_" ++ column.column_name) "column-relationship")
  column_elements ++ edge_elements

/-- The node emitted for one table row. -/
def tableNodeOf (t : TableRow) : Element :=
  Element.node ("table_" ++ t.table_name) t.table_name "table"

/-- The target id the schema builder picks for one relationship row, given
the list of fetched table names: the mapped node id when the referenced
table was fetched, otherwise the raw `foreign_table_name` fallback. -/
def relTargetOf (names : List String) (r : RelRow) : String :=
  if r.foreign_table_name ∈ names then "table_" ++ r.foreign_table_name
  else r.foreign_table_name

/-- The edge emitted for one relationship row, given the list of fetched
table names (used for the target fallback). -/
def relEdgeOf (names : List String) (r : RelRow) : Element :=
  Element.edge
    ("edge_" ++ ("table_" ++ r.table_name) ++ "_to_" ++ relTargetOf names r)
    ("table_" ++ r.table_name) (relTargetOf names r) "relationship"

/-- The node emitted by the column builder for one column row. -/
def colNodeOf (table : String) (c : ColumnRow) : Element :=
  Element.node (table ++ "_" ++ c.column_name) c.column_name "column"

/-- The edge emitted by the column builder for one column row; its id is
built from the raw table name (`f"edge_{table}_to_{column_id}"`), not from
the `table_`-prefixed node id. -/
def colEdgeOf (table : String) (c : ColumnRow) : Element :=
  Element.edge ("edge_" ++ table ++ "_to_" ++ (table ++ "_" ++ c.column_name))
    ("table_" ++ table) (table ++ "_" ++ c.column_name) "column-relationship"

/-- Wire shape required by the spec's consumers (modelled from the spec's
words, for the refinement claim): a node element whose kind is `table` or
`column`, or an edge element whose kind is `relationship` or
`column-relationship`. -/
def wireShapeB : Element → Bool
  | .node _ _ ty => ty == "table" || ty == "column"
  | .edge _ _ _ ty => ty == "relationship" || ty == "column-relationship"

lemma dictGet_table_nodes (tables : List TableRow) (k : String) :
    dictGet (table_nodes tables) k =
      if k ∈ tables.map TableRow.table_name then some ("table_" ++ k) else none := by
  induction tables with
  | nil => simp [table_nodes, dictGet]
  | cons t ts ih =>
    simp only [table_nodes, List.map_cons] at ih ⊢
    simp only [dictGet, ih]
    by_cases hk : k ∈ ts.map TableRow.table_name
    · simp [hk]
    · by_cases ht : t.table_name = k
      · subst ht
        simp [hk]
      · have hkt : ¬ k = t.table_name := fun h => ht h.symm
        simp only [List.mem_cons, hkt, false_or, hk, if_false]
        rw [if_neg ht]

lemma mapOption_eq_some_of_forall {α β : Type} (f : α → Option β) (g : α → β)
    (L : List α) (h : ∀ a ∈ L, f a = some (g a)) :
    mapOption f L = some (L.map g) := by
  induction L with
  | nil => rfl
  | cons a as ih =>
    have ha := h a (List.mem_cons_self a as)
    have has := ih (fun x hx => h x (List.mem_cons_of_mem a hx))
    simp [mapOption, ha, has]

lemma mapOption_eq_none {α β : Type} (f : α → Option β) {L : List α} {a : α}
    (ha : a ∈ L) (hfa : f a = none) : mapOption f L = none := by
  induction L with
  | nil => cases ha
  | cons x xs ih =>
    rcases List.mem_cons.mp ha with h | h
    · subst h
      simp [mapOption, hfa]
    · have hrest := ih h
      simp only [mapOption, hrest]
      cases f x <;> rfl

/-- When every relationship's owning table was fetched, the schema builder
returns exactly the table nodes followed by the relationship edges. -/
lemma buildSchemaGraph_eq (tables : List TableRow) (relationships : List RelRow)
    (hown : ∀ r ∈ relationships, r.table_name ∈ tables.map TableRow.table_name) :
    buildSchemaGraph tables relationships =
      some (tables.map tableNodeOf ++
        relationships.map (relEdgeOf (tables.map TableRow.table_name))) := by
  have hnodes : mapOption (fun t =>
      (dictGet (table_nodes tables) t.table_name).map (fun tid =>
        Element.node tid t.table_name "table")) tables =
      some (tables.map tableNodeOf) := by
    apply mapOption_eq_some_of_forall
    intro t ht
    have hmem : t.table_name ∈ tables.map TableRow.table_name :=
      List.mem_map_of_mem TableRow.table_name ht
    rw [dictGet_table_nodes, if_pos hmem]
    rfl
  have hedges : mapOption (fun rel =>
      (dictGet (table_nodes tables) rel.table_name).map (fun source_id =>
        let target_id :=
          dictGetD (table_nodes tables) rel.foreign_table_name rel.foreign_table_name
        Element.edge ("edge_" ++ source_id ++ "_to_" ++ target_id)
          source_id target_id "relationship")) relationships =
      some (relationships.map (relEdgeOf (tables.map TableRow.table_name))) := by
    apply mapOption_eq_some_of_forall
    intro r hr
    rw [dictGet_table_nodes, if_pos (hown r hr)]
    simp only [Option.map_some]
    unfold relEdgeOf relTargetOf dictGetD
    rw [dictGet_table_nodes]
    by_cases hf : r.foreign_table_name ∈ tables.map TableRow.table_name
    · simp [hf]
    · simp [hf]
  unfold buildSchemaGraph
  simp only [hnodes, hedges]

lemma buildColumnGraph_eq (table : String) (columns : List ColumnRow) :
    buildColumnGraph table columns =
      columns.map (colNodeOf table) ++ columns.map (colEdgeOf table) := rfl

lemma table_prefix_injective : Function.Injective (fun s => "table_" ++ s) := by
  intro a b h
  have h2 := congrArg String.data h
  simp only [String.data_append] at h2
  exact String.ext (List.append_cancel_left h2)

lemma filter_map_true {α : Type} (f : α → Element) (p : Element → Bool)
    (L : List α) (h : ∀ a, p (f a) = true) : (L.map f).filter p = L.map f := by
  induction L with
  | nil => rfl
  | cons a as ih => simp [List.map_cons, List.filter_cons, h a, ih]

lemma filter_map_false {α : Type} (f : α → Element) (p : Element → Bool)
    (L : List α) (h : ∀ a, p (f a) = false) : (L.map f).filter p = [] := by
  induction L with
  | nil => rfl
  | cons a as ih => simp [List.map_cons, List.filter_cons, h a, ih]

lemma all_map_true {α : Type} (f : α → Element) (p : Element → Bool)
    (L : List α) (h : ∀ a, p (f a) = true) : (L.map f).all p = true := by
  induction L with
  | nil => rfl
  | cons a as ih => simp [List.map_cons, List.all_cons, h a, ih]

/-- A relationship row whose owning table was not fetched makes the whole
schema build fail (the `KeyError` on `table_nodes[rel['table_name']]`). -/
lemma buildSchemaGraph_none_of_missing_owner (tables : List TableRow)
    (relationships : List RelRow) {r : RelRow} (hr : r ∈ relationships)
    (hmem : r.table_name ∉ tables.map TableRow.table_name) :
    buildSchemaGraph tables relationships = none := by
  have hfr : (fun rel : RelRow =>
      (dictGet (table_nodes tables) rel.table_name).map (fun source_id =>
        let target_id :=
          dictGetD (table_nodes tables) rel.foreign_table_name rel.foreign_table_name
        Element.edge ("edge_" ++ source_id ++ "_to_" ++ target_id)
          source_id target_id "relationship")) r = none := by
    simp only [dictGet_table_nodes, if_neg hmem]
    rfl
  have hedges : mapOption (fun rel : RelRow =>
      (dictGet (table_nodes tables) rel.table_name).map (fun source_id =>
        let target_id :=
          dictGetD (table_nodes tables) rel.foreign_table_name rel.foreign_table_name
        Element.edge ("edge_" ++ source_id ++ "_to_" ++ target_id)
          source_id target_id "relationship")) relationships = none :=
    mapOption_eq_none _ hr hfr
  simp only [buildSchemaGraph, hedges]
  cases mapOption (fun t =>
      (dictGet (table_nodes tables) t.table_name).map (fun tid =>
        Element.node tid t.table_name "table")) tables <;> rfl

/-- The schema builder succeeds exactly when every relationship's owning
table is among the fetched tables. -/
lemma buildSchemaGraph_isSome_iff (tables : List TableRow)
    (relationships : List RelRow) :
    (buildSchemaGraph tables relationships).isSome = true ↔
      ∀ r ∈ relationships, r.table_name ∈ tables.map TableRow.table_name := by
  constructor
  · intro hsome
    by_contra hnot
    push_neg at hnot
    obtain ⟨r, hr, hmem⟩ := hnot
    rw [buildSchemaGraph_none_of_missing_owner tables relationships hr hmem] at hsome
    simp at hsome
  · intro hown
    rw [buildSchemaGraph_eq tables relationships hown]
    rfl

/-- C1 (counterexample): with the distinct table list `[a]` and the single
foreign-key tuple `(b, a)` whose owning table `b` was not fetched, the
schema builder raises (`none`) instead of emitting one node for `a` and one
edge for the tuple, refuting the claim for arbitrary inputs with distinct
table names. -/
theorem schema_graph_missing_owner_counterexample :
    (([⟨"a"⟩] : List TableRow).map TableRow.table_name).Nodup ∧
    buildSchemaGraph [⟨"a"⟩] [⟨"b", "a"⟩] = none := by
  exact ⟨by decide, rfl⟩

/-- C1 (amended): when the table names are distinct AND every foreign-key
tuple's owning table is among the input tables, the schema builder emits
exactly one table node per input table with pairwise distinct node ids and
exactly one relationship edge per foreign-key tuple; in particular
`buildSchemaGraph T []` is exactly the list of table nodes, one per table,
with no edges. -/
theorem schema_graph_counts (T : List TableRow) (F : List RelRow)
    (hdist : (T.map TableRow.table_name).Nodup)
    (hown : ∀ r ∈ F, r.table_name ∈ T.map TableRow.table_name) :
    ∃ g, buildSchemaGraph T F = some g ∧
      (g.filter Element.isNodeB).length = T.length ∧
      (g.filter Element.isEdgeB).length = F.length ∧
      ((g.filter Element.isNodeB).map Element.idOf).Nodup ∧
      buildSchemaGraph T [] = some (T.map tableNodeOf) := by
  refine ⟨_, buildSchemaGraph_eq T F hown, ?_, ?_, ?_, ?_⟩
  · rw [List.filter_append,
      filter_map_true tableNodeOf Element.isNodeB T (fun t => rfl),
      filter_map_false (relEdgeOf (T.map TableRow.table_name)) Element.isNodeB F
        (fun r => rfl)]
    simp
  · rw [List.filter_append,
      filter_map_false tableNodeOf Element.isEdgeB T (fun t => rfl),
      filter_map_true (relEdgeOf (T.map TableRow.table_name)) Element.isEdgeB F
        (fun r => rfl)]
    simp
  · rw [List.filter_append,
      filter_map_true tableNodeOf Element.isNodeB T (fun t => rfl),
      filter_map_false (relEdgeOf (T.map TableRow.table_name)) Element.isNodeB F
        (fun r => rfl)]
    have hmaps : ((T.map tableNodeOf ++ []).map Element.idOf) =
        (T.map TableRow.table_name).map (fun s => "table_" ++ s) := by
      simp [List.map_map]
      intro a _
      rfl
    rw [hmaps]
    exact hdist.map table_prefix_injective
  · rw [buildSchemaGraph_eq T [] (fun r hr => absurd hr (List.not_mem_nil r))]
    simp

/-- C1 (witness): a concrete run with two distinct tables and one
foreign key whose owning table is present. -/
theorem schema_graph_counts_witness :
    (([⟨"a"⟩, ⟨"b"⟩] : List TableRow).map TableRow.table_name).Nodup ∧
    (∀ r ∈ ([⟨"a", "b"⟩] : List RelRow),
      r.table_name ∈ ([⟨"a"⟩, ⟨"b"⟩] : List TableRow).map TableRow.table_name) ∧
    (∃ g, buildSchemaGraph [⟨"a"⟩, ⟨"b"⟩] [⟨"a", "b"⟩] = some g ∧
      (g.filter Element.isNodeB).length = ([⟨"a"⟩, ⟨"b"⟩] : List TableRow).length ∧
      (g.filter Element.isEdgeB).length = ([⟨"a", "b"⟩] : List RelRow).length ∧
      ((g.filter Element.isNodeB).map Element.idOf).Nodup ∧
      buildSchemaGraph [⟨"a"⟩, ⟨"b"⟩] [] =
        some (([⟨"a"⟩, ⟨"b"⟩] : List TableRow).map tableNodeOf)) :=
  ⟨by decide, by decide, schema_graph_counts [⟨"a"⟩, ⟨"b"⟩] [⟨"a", "b"⟩]
    (by decide) (by decide)⟩

/-- C3 (counterexample): the empty table list together with one foreign-key
tuple is a well-typed input on which the schema builder does not return a
graph: the raising index `table_nodes[rel['table_name']]` (a `KeyError`,
modelled as `none`) refutes totality. -/
theorem schema_graph_not_total_counterexample :
    buildSchemaGraph [] [⟨"a", "b"⟩] = none := rfl

/-- C3 (amended): the schema builder returns a graph exactly when every
foreign-key tuple's owning `tableName` appears among the input tables
(in particular for all inputs with no foreign keys, including empty
sequences); when some owning table is absent, the source lookup raises
instead of resolving via the `table_` prefix. -/
theorem schema_graph_total_iff (T : List TableRow) (F : List RelRow) :
    (buildSchemaGraph T F).isSome = true ↔
      ∀ r ∈ F, r.table_name ∈ T.map TableRow.table_name :=
  buildSchemaGraph_isSome_iff T F

/-- C8: on empty input both builders return an empty element sequence
(`some []`, not a raised error, for the schema builder; `[]` for the
column builder with any table name). -/
theorem empty_inputs_empty_graph (t : String) :
    buildSchemaGraph [] [] = some [] ∧ buildColumnGraph t [] = [] :=
  ⟨rfl, rfl⟩

/-- C9: both builders are deterministic pure functions of their input rows:
identical input sequences yield structurally identical graphs, with no
dependence on hidden state (the embedding of the transform is stateless,
so equal inputs give equal outputs). -/
theorem builders_deterministic (T T' : List TableRow) (F F' : List RelRow)
    (t t' : String) (C C' : List ColumnRow)
    (hT : T = T') (hF : F = F') (ht : t = t') (hC : C = C') :
    buildSchemaGraph T F = buildSchemaGraph T' F' ∧
    buildColumnGraph t C = buildColumnGraph t' C' := by
  subst hT; subst hF; subst ht; subst hC
  exact ⟨rfl, rfl⟩

/-- C9 (witness): determinism at a concrete input. -/
theorem builders_deterministic_witness :
    buildSchemaGraph [⟨"a"⟩] [⟨"a", "a"⟩] = buildSchemaGraph [⟨"a"⟩] [⟨"a", "a"⟩] ∧
    buildColumnGraph "users" [⟨"id"⟩] = buildColumnGraph "users" [⟨"id"⟩] :=
  builders_deterministic [⟨"a"⟩] [⟨"a"⟩] [⟨"a", "a"⟩] [⟨"a", "a"⟩]
    "users" "users" [⟨"id"⟩] [⟨"id"⟩] rfl rfl rfl rfl

/-- C4: for every table name and column list, the column builder emits
exactly one node of kind `column` per column and exactly one edge of kind
`column-relationship` per column, and every emitted edge's source is the
fixed table node id `table_` + table name. -/
theorem column_graph_counts (t : String) (C : List ColumnRow) :
    ((buildColumnGraph t C).filter
        (fun e => Element.isNodeB e && (Element.tyOf e == "column"))).length =
      C.length ∧
    ((buildColumnGraph t C).filter
        (fun e => Element.isEdgeB e && (Element.tyOf e == "column-relationship"))).length =
      C.length ∧
    ((buildColumnGraph t C).filter Element.isEdgeB).all
      (fun e => Element.sourceOf e == "table_" ++ t) = true := by
  refine ⟨?_, ?_, ?_⟩
  · rw [buildColumnGraph_eq, List.filter_append,
      filter_map_true (colNodeOf t) _ C (fun c => rfl),
      filter_map_false (colEdgeOf t) _ C (fun c => rfl)]
    simp
  · rw [buildColumnGraph_eq, List.filter_append,
      filter_map_false (colNodeOf t) _ C (fun c => rfl),
      filter_map_true (colEdgeOf t) _ C (fun c => rfl)]
    simp
  · rw [buildColumnGraph_eq, List.filter_append,
      filter_map_false (colNodeOf t) Element.isEdgeB C (fun c => rfl),
      filter_map_true (colEdgeOf t) Element.isEdgeB C (fun c => rfl)]
    simp only [List.nil_append]
    exact all_map_true (colEdgeOf t) _ C (fun c => by simp [colEdgeOf, Element.sourceOf])

/-- C5 (counterexample): for table `users` and single column `id`, the
only emitted edge's id is `edge_users_to_users_id` — built from the raw
table name — and not the claimed `edge_table_users_to_users_id` built from
the table node id. -/
theorem column_edge_id_counterexample :
    ((buildColumnGraph "users" [⟨"id"⟩]).filter Element.isEdgeB).map Element.idOf =
      ["edge_users_to_users_id"] ∧
    ((buildColumnGraph "users" [⟨"id"⟩]).filter Element.isEdgeB).map Element.idOf ≠
      ["edge_table_users_to_users_id"] := by
  exact ⟨rfl, by decide⟩

/-- C5 (amended): every edge id emitted by the column builder is
`"edge_" + tableName + "_to_" + columnNodeId(tableName, columnName)` —
the raw table name, not the `table_`-prefixed table node id, precedes
`"_to_"`. -/
theorem column_edge_ids (t : String) (C : List ColumnRow) :
    ((buildColumnGraph t C).filter Element.isEdgeB).map Element.idOf =
      C.map (fun c => "edge_" ++ t ++ "_to_" ++ (t ++ "_" ++ c.column_name)) := by
  rw [buildColumnGraph_eq, List.filter_append,
    filter_map_false (colNodeOf t) Element.isEdgeB C (fun c => rfl),
    filter_map_true (colEdgeOf t) Element.isEdgeB C (fun c => rfl)]
  simp only [List.nil_append, List.map_map]
  rfl

/-- C6: the column builder's output contains no node for the table itself:
exactly one node per column plus one edge per column, and no element is a
node of kind `table` (the `table_node` dictionary of line 96 is never
appended). -/
theorem column_graph_no_table_node (t : String) (C : List ColumnRow) :
    ((buildColumnGraph t C).filter Element.isNodeB).length = C.length ∧
    ((buildColumnGraph t C).filter Element.isEdgeB).length = C.length ∧
    (buildColumnGraph t C).all
      (fun e => !(Element.isNodeB e && (Element.tyOf e == "table"))) = true := by
  refine ⟨?_, ?_, ?_⟩
  · rw [buildColumnGraph_eq, List.filter_append,
      filter_map_true (colNodeOf t) Element.isNodeB C (fun c => rfl),
      filter_map_false (colEdgeOf t) Element.isNodeB C (fun c => rfl)]
    simp
  · rw [buildColumnGraph_eq, List.filter_append,
      filter_map_false (colNodeOf t) Element.isEdgeB C (fun c => rfl),
      filter_map_true (colEdgeOf t) Element.isEdgeB C (fun c => rfl)]
    simp
  · rw [buildColumnGraph_eq, List.all_append,
      all_map_true (colNodeOf t) _ C (fun c => rfl),
      all_map_true (colEdgeOf t) _ C (fun c => rfl)]
    rfl

/-- C10: the column builder's output is grouped, not interleaved: the
column nodes in input order, then the column-relationship edges in input
order (`column_elements + edge_elements`). -/
theorem column_graph_grouped (t : String) (C : List ColumnRow) :
    buildColumnGraph t C =
      C.map (fun c =>
        Element.node (t ++ "_" ++ c.column_name) c.column_name "column") ++
      C.map (fun c =>
        Element.edge ("edge_" ++ t ++ "_to_" ++ (t ++ "_" ++ c.column_name))
          ("table_" ++ t) (t ++ "_" ++ c.column_name) "column-relationship") ∧
    ((buildColumnGraph t C).take C.length).all Element.isNodeB = true ∧
    ((buildColumnGraph t C).drop C.length).all Element.isEdgeB = true := by
  refine ⟨rfl, ?_, ?_⟩
  · rw [buildColumnGraph_eq, List.take_left' (by simp)]
    exact all_map_true (colNodeOf t) _ C (fun c => rfl)
  · rw [buildColumnGraph_eq, List.drop_left' (by simp)]
    exact all_map_true (colEdgeOf t) _ C (fun c => rfl)

/-- C2: whenever the schema builder runs to completion (every foreign-key
tuple's owning table fetched), each emitted edge's target is the mapped
node id of `foreignTableName` when that table is among the input tables
and the raw `foreignTableName` string otherwise; when additionally every
referenced table is among the input tables, each edge's source and target
are node ids of emitted nodes; and the degraded `ghost` example is a
normal output, not an error. -/
theorem schema_graph_edge_targets (T : List TableRow) (F : List RelRow)
    (hown : ∀ r ∈ F, r.table_name ∈ T.map TableRow.table_name) :
    ∃ g, buildSchemaGraph T F = some g ∧
      g.filter Element.isEdgeB = F.map (fun r =>
        Element.edge
          ("edge_" ++ ("table_" ++ r.table_name) ++ "_to_" ++
            (if r.foreign_table_name ∈ T.map TableRow.table_name
             then "table_" ++ r.foreign_table_name else r.foreign_table_name))
          ("table_" ++ r.table_name)
          (if r.foreign_table_name ∈ T.map TableRow.table_name
           then "table_" ++ r.foreign_table_name else r.foreign_table_name)
          "relationship") ∧
      ((∀ r ∈ F, r.foreign_table_name ∈ T.map TableRow.table_name) →
        ∀ e ∈ g.filter Element.isEdgeB,
          Element.sourceOf e ∈ (g.filter Element.isNodeB).map Element.idOf ∧
          Element.targetOf e ∈ (g.filter Element.isNodeB).map Element.idOf) ∧
      buildSchemaGraph [⟨"orders"⟩] [⟨"orders", "ghost"⟩] =
        some [Element.node "table_orders" "orders" "table",
          Element.edge "edge_table_orders_to_ghost" "table_orders" "ghost"
            "relationship"] := by
  have hE : (T.map tableNodeOf ++
      F.map (relEdgeOf (T.map TableRow.table_name))).filter Element.isEdgeB =
      F.map (relEdgeOf (T.map TableRow.table_name)) := by
    rw [List.filter_append,
      filter_map_false tableNodeOf Element.isEdgeB T (fun a => rfl),
      filter_map_true (relEdgeOf (T.map TableRow.table_name)) Element.isEdgeB F
        (fun a => rfl)]
    simp
  have hN : (T.map tableNodeOf ++
      F.map (relEdgeOf (T.map TableRow.table_name))).filter Element.isNodeB =
      T.map tableNodeOf := by
    rw [List.filter_append,
      filter_map_true tableNodeOf Element.isNodeB T (fun a => rfl),
      filter_map_false (relEdgeOf (T.map TableRow.table_name)) Element.isNodeB F
        (fun a => rfl)]
    simp
  refine ⟨_, buildSchemaGraph_eq T F hown, ?_, ?_, ?_⟩
  · rw [hE]
    rfl
  · intro hforeign e he
    rw [hE] at he
    rw [hN]
    obtain ⟨r, hr, rfl⟩ := List.mem_map.mp he
    constructor
    · obtain ⟨t0, ht0, hteq⟩ := List.mem_map.mp (hown r hr)
      refine List.mem_map.mpr ⟨tableNodeOf t0, List.mem_map.mpr ⟨t0, ht0, rfl⟩, ?_⟩
      simp [tableNodeOf, Element.idOf, relEdgeOf, Element.sourceOf, hteq]
    · obtain ⟨t0, ht0, hteq⟩ := List.mem_map.mp (hforeign r hr)
      refine List.mem_map.mpr ⟨tableNodeOf t0, List.mem_map.mpr ⟨t0, ht0, rfl⟩, ?_⟩
      simp [tableNodeOf, Element.idOf, relEdgeOf, Element.targetOf, relTargetOf,
        hforeign r hr, hteq]
  · decide

/-- C2 (witness): the degraded example itself satisfies the hypothesis and
the conclusion. -/
theorem schema_graph_edge_targets_witness :
    (∀ r ∈ ([⟨"orders", "ghost"⟩] : List RelRow),
      r.table_name ∈ ([⟨"orders"⟩] : List TableRow).map TableRow.table_name) ∧
    (∃ g, buildSchemaGraph [⟨"orders"⟩] [⟨"orders", "ghost"⟩] = some g ∧
      g.filter Element.isEdgeB = ([⟨"orders", "ghost"⟩] : List RelRow).map (fun r =>
        Element.edge
          ("edge_" ++ ("table_" ++ r.table_name) ++ "_to_" ++
            (if r.foreign_table_name ∈
                ([⟨"orders"⟩] : List TableRow).map TableRow.table_name
             then "table_" ++ r.foreign_table_name else r.foreign_table_name))
          ("table_" ++ r.table_name)
          (if r.foreign_table_name ∈
              ([⟨"orders"⟩] : List TableRow).map TableRow.table_name
           then "table_" ++ r.foreign_table_name else r.foreign_table_name)
          "relationship") ∧
      ((∀ r ∈ ([⟨"orders", "ghost"⟩] : List RelRow),
          r.foreign_table_name ∈
            ([⟨"orders"⟩] : List TableRow).map TableRow.table_name) →
        ∀ e ∈ g.filter Element.isEdgeB,
          Element.sourceOf e ∈ (g.filter Element.isNodeB).map Element.idOf ∧
          Element.targetOf e ∈ (g.filter Element.isNodeB).map Element.idOf) ∧
      buildSchemaGraph [⟨"orders"⟩] [⟨"orders", "ghost"⟩] =
        some [Element.node "table_orders" "orders" "table",
          Element.edge "edge_table_orders_to_ghost" "table_orders" "ghost"
            "relationship"]) :=
  ⟨by decide, schema_graph_edge_targets [⟨"orders"⟩] [⟨"orders", "ghost"⟩] (by decide)⟩

/-- C7: every element either builder emits has the wire shape of a node
(`id`/`label`/kind `table` or `column`) or of an edge
(`id`/`source`/`target`/kind `relationship` or `column-relationship`),
and the graph is the flat element sequence. -/
theorem wire_shape_preserved (T : List TableRow) (F : List RelRow)
    (t : String) (C : List ColumnRow) :
    (∀ g, buildSchemaGraph T F = some g → g.all wireShapeB = true) ∧
    (buildColumnGraph t C).all wireShapeB = true := by
  constructor
  · intro g hg
    have hown : ∀ r ∈ F, r.table_name ∈ T.map TableRow.table_name := by
      apply (buildSchemaGraph_isSome_iff T F).mp
      rw [hg]
      rfl
    rw [buildSchemaGraph_eq T F hown] at hg
    injection hg with h
    subst h
    rw [List.all_append,
      all_map_true tableNodeOf wireShapeB T (fun a => rfl),
      all_map_true (relEdgeOf (T.map TableRow.table_name)) wireShapeB F
        (fun a => rfl)]
    rfl
  · rw [buildColumnGraph_eq, List.all_append,
      all_map_true (colNodeOf t) wireShapeB C (fun a => rfl),
      all_map_true (colEdgeOf t) wireShapeB C (fun a => rfl)]
    rfl

/-- C7 (witness): the wire shape at a concrete schema graph and a concrete
column graph. -/
theorem wire_shape_preserved_witness :
    ([Element.node "table_a" "a" "table",
      Element.edge "edge_table_a_to_table_a" "table_a" "table_a"
        "relationship"].all wireShapeB = true) ∧
    (buildColumnGraph "x" [⟨"c"⟩]).all wireShapeB = true :=
  ⟨(wire_shape_preserved [⟨"a"⟩] [⟨"a", "a"⟩] "x" [⟨"c"⟩]).1 _ (by decide),
   (wire_shape_preserved [⟨"a"⟩] [⟨"a", "a"⟩] "x" [⟨"c"⟩]).2⟩

end DataAtlas
